import Mathlib

/-!
Verification of the Query Profiler core (query-insights-dashboards).

This file shallowly embeds the data-transformation core of the repository:
the profile-document validator (`validation.ts`), the parse/serialize pair
(`parsing.ts`), the tree normalizer `QueryTree.processedQueries`, the
threshold classifier `getBarColor`, and the breakdown-row extraction
`getBreakdownEntries`.  Decoded JSON values are modelled by the inductive
`JSValue`; JavaScript truthiness, `typeof x === 'object'` and property
access are modelled explicitly.  Machine numbers are modelled by `ℚ`
(timings by `Nat`/`Int` where the source only adds and compares them).
-/

/-- A decoded JSON value (the result of `JSON.parse`).  Objects keep their
key insertion order, as JavaScript objects do; keys are unique in any value
produced by the platform parser. -/
inductive JSValue where
  | null : JSValue
  | bool : Bool → JSValue
  | num : ℚ → JSValue
  | str : String → JSValue
  | arr : List JSValue → JSValue
  | obj : List (String × JSValue) → JSValue

/-- JavaScript truthiness of a decoded JSON value (`undefined` is handled
separately through `Option`): `null`, `false`, `0` and `""` are falsy. -/
def truthy : JSValue → Bool
  | .null => false
  | .bool b => b
  | .num q => q ≠ 0
  | .str s => s ≠ ""
  | .arr _ => true
  | .obj _ => true

/-- `typeof x === 'object'`: true for objects, arrays and `null`. -/
def typeofObject : JSValue → Bool
  | .null => true
  | .arr _ => true
  | .obj _ => true
  | _ => false

/-- First-match lookup in an object's field list. -/
def lookupField : List (String × JSValue) → String → Option JSValue
  | [], _ => none
  | (k', v) :: rest, k => if k' = k then some v else lookupField rest k

/-- Property access `x.k`: named fields only exist on objects; on a decoded
array or primitive a named property reads back `undefined` (`none`). -/
def getField : JSValue → String → Option JSValue
  | .obj fields, k => lookupField fields k
  | _, _ => none

/-- Assignment into an object's field list: overwrite the existing key in
place, or append a fresh key at the end (JavaScript insertion order). -/
def setFields : List (String × JSValue) → String → JSValue → List (String × JSValue)
  | [], k, v => [(k, v)]
  | (k', v') :: rest, k, v =>
      if k' = k then (k, v) :: rest else (k', v') :: setFields rest k v

/-- Property assignment `x.k = v`; only object values carry named fields. -/
def setField : JSValue → String → JSValue → JSValue
  | .obj fields, k, v => .obj (setFields fields k v)
  | other, _, _ => other

/-- Error kinds of the profiler (`ProfilerErrorType` in `types`). -/
inductive ProfilerErrorType where
  | INVALID_JSON : ProfilerErrorType
  | INVALID_PROFILE_FORMAT : ProfilerErrorType
  | FILE_READ_ERROR : ProfilerErrorType
  | MISSING_PROFILE_DATA : ProfilerErrorType
  | COMPARISON_ERROR : ProfilerErrorType
deriving DecidableEq

/-- A typed profiler error (`ProfilerError` in `types`). -/
structure ProfilerError where
  type : ProfilerErrorType
  message : String
  details : Option String
deriving DecidableEq

/-- Result of a validation (`ValidationResult` in `validation.ts`). -/
structure ValidationResult where
  isValid : Bool
  error : Option ProfilerError
deriving DecidableEq

/-- The per-shard loop of `validateProfileData`: each shard must be a truthy
object carrying a `searches` array; the first offending index is reported. -/
def validateShards : List JSValue → Nat → Option ProfilerError
  | [], _ => none
  | shard :: rest, i =>
      if !(truthy shard && typeofObject shard) then
        some ⟨.INVALID_PROFILE_FORMAT, "Invalid shard at index " ++ toString i,
          some "Each shard must be an object"⟩
      else
        match getField shard "searches" with
        | some (.arr _) => validateShards rest (i + 1)
        | _ =>
            some ⟨.INVALID_PROFILE_FORMAT, "Invalid shard at index " ++ toString i,
              some "Each shard must have a \"searches\" array"⟩

/-- `data.profile.shards.length` as read by the default-filling step. -/
def shardCount (data : JSValue) : Nat :=
  match getField data "profile" with
  | some p =>
      match getField p "shards" with
      | some (.arr l) => l.length
      | _ => 0
  | none => 0

/-- `if (typeof data.took !== 'number') data.took = 0`. -/
def fillTook (data : JSValue) : JSValue :=
  match getField data "took" with
  | some (.num _) => data
  | _ => setField data "took" (.num 0)

/-- The `_shards` default derived from the shard count. -/
def defaultShards (n : Nat) : JSValue :=
  .obj [("total", .num n), ("successful", .num n), ("skipped", .num 0), ("failed", .num 0)]

/-- `if (!data._shards) data._shards = { total, successful, skipped, failed }`. -/
def fillShardsInfo (data : JSValue) : JSValue :=
  match getField data "_shards" with
  | some v => if truthy v then data else setField data "_shards" (defaultShards (shardCount data))
  | none => setField data "_shards" (defaultShards (shardCount data))

/-- The `hits` default. -/
def defaultHits : JSValue :=
  .obj [("total", .num 0), ("max_score", .null), ("hits", .arr [])]

/-- `if (!data.hits) data.hits = { total: 0, max_score: null, hits: [] }`. -/
def fillHits (data : JSValue) : JSValue :=
  match getField data "hits" with
  | some v => if truthy v then data else setField data "hits" defaultHits
  | none => setField data "hits" defaultHits

/-- The default-backfilling tail of `validateProfileData` (the in-place
mutation of the valid document, expressed functionally). -/
def fillDefaults (data : JSValue) : JSValue :=
  fillHits (fillShardsInfo (fillTook data))

/-- `validateProfileData` from `validation.ts`.  Returns the validation
result together with the (possibly default-backfilled) document, modelling
the source's in-place mutation of its argument on the success path. -/
def validateProfileData (data : JSValue) : ValidationResult × JSValue :=
  if !(truthy data && typeofObject data) then
    (⟨false, some ⟨.INVALID_PROFILE_FORMAT, "Invalid profile data",
      some "Profile data must be an object"⟩⟩, data)
  else
    match getField data "profile" with
    | none =>
        (⟨false, some ⟨.MISSING_PROFILE_DATA, "Missing required field: profile",
          some "The \"profile\" field must be an object containing profiling information"⟩⟩, data)
    | some p =>
        if !(truthy p && typeofObject p) then
          (⟨false, some ⟨.MISSING_PROFILE_DATA, "Missing required field: profile",
            some "The \"profile\" field must be an object containing profiling information"⟩⟩, data)
        else
          match getField p "shards" with
          | some (.arr shards) =>
              if shards.length = 0 then
                (⟨false, some ⟨.MISSING_PROFILE_DATA, "No shard data found",
                  some "profile.shards array must contain at least one shard profile"⟩⟩, data)
              else
                match validateShards shards 0 with
                | some err => (⟨false, some err⟩, data)
                | none => (⟨true, none⟩, fillDefaults data)
          | _ =>
              (⟨false, some ⟨.INVALID_PROFILE_FORMAT, "Invalid profile.shards structure",
                some "profile.shards must be an array of shard profiles"⟩⟩, data)

/-- The error kind reported by a validation, if any. -/
def errType (r : ValidationResult × JSValue) : Option ProfilerErrorType :=
  r.1.error.map (·.type)

/-- A JSON primitive (neither an object nor an array in the `typeof` sense,
or `null`): exactly the `profile` values folded into the "missing" check. -/
def isPrimitive : JSValue → Bool
  | .null => true
  | .bool _ => true
  | .num _ => true
  | .str _ => true
  | .arr _ => false
  | .obj _ => false

/-- Escaping of one character inside a JSON string literal. -/
def escChar (c : Char) : String :=
  if c = '"' then "\\\"" else if c = '\\' then "\\\\" else String.singleton c

/-- Escaping of a JSON string literal body. -/
def escapeString (s : String) : String :=
  s.data.foldr (fun c acc => escChar c ++ acc) ""

mutual
/-- The platform serializer `JSON.stringify` is not part of this repository;
this executable serializer stands in for it.  Its exact text format (the
source pretty-prints with 2-space indentation) is immaterial here: the
round-trip claim is settled through the modelled parse/stringify identity
`jsonReparse`. -/
def stringify : JSValue → String
  | .null => "null"
  | .bool true => "true"
  | .bool false => "false"
  | .num q => toString q
  | .str s => "\"" ++ escapeString s ++ "\""
  | .arr l => "[" ++ stringifyElems l ++ "]"
  | .obj fs => "\x7b" ++ stringifyFields fs ++ "\x7d"

/-- Comma-separated serialization of array elements. -/
def stringifyElems : List JSValue → String
  | [] => ""
  | v :: rest =>
      stringify v ++ (match rest with | [] => "" | _ :: _ => ",") ++ stringifyElems rest

/-- Comma-separated serialization of object fields. -/
def stringifyFields : List (String × JSValue) → String
  | [] => ""
  | (k, v) :: rest =>
      "\"" ++ escapeString k ++ "\":" ++ stringify v ++
        (match rest with | [] => "" | _ :: _ => ",") ++ stringifyFields rest
end

/-- `serializeProfileData` from `parsing.ts`: `JSON.stringify(data, null, 2)`
under a try/catch that returns `null` on failure.  The only failure mode of
the platform serializer on decoded data is a circular structure, which the
inductive `JSValue` cannot represent, so serialization always succeeds. -/
def serializeProfileData (data : JSValue) : Option String :=
  some (stringify data)

/-- Modelled from the spec: the platform pair `JSON.parse` / `JSON.stringify`
(used by `parseProfileJSON` and `serializeProfileData`) is not code of this
repository.  Per the spec, §4.2 and §8, parsing the serializer's output
yields the serialized document back ("a verbatim passthrough, enabling
round-trip re-import"), so the composition `JSON.parse ∘ JSON.stringify` is
modelled as the identity on decoded values. -/
def jsonReparse (data : JSValue) : JSValue :=
  data

example : errType (validateProfileData (.obj [("profile", .num 5)])) =
    some .MISSING_PROFILE_DATA := by decide

example : errType (validateProfileData (.obj [("profile", .obj [("shards", .arr [])])])) =
    some .MISSING_PROFILE_DATA := by decide

example : errType (validateProfileData (.obj [("profile", .arr [])])) =
    some .INVALID_PROFILE_FORMAT := by decide

example :
    (validateProfileData (.obj [("profile",
      .obj [("shards", .arr [.obj [("searches", .arr [.num 1])]])])])).1.isValid = true := by
  decide

example :
    validateProfileData (fillDefaults (.obj [("profile",
      .obj [("shards", .arr [.obj [("searches", .arr [.num 1])]])])])) =
    (⟨true, none⟩, fillDefaults (.obj [("profile",
      .obj [("shards", .arr [.obj [("searches", .arr [.num 1])]])])])) := rfl

/-! ### Validation lemmas -/

theorem lookup_setFields_self (fs : List (String × JSValue)) (k : String) (v : JSValue) :
    lookupField (setFields fs k v) k = some v := by
  induction fs with
  | nil => simp [setFields, lookupField]
  | cons a rest ih =>
      obtain ⟨k', v'⟩ := a
      by_cases h : k' = k
      · simp [setFields, h, lookupField]
      · simp [setFields, h, lookupField, ih]

theorem lookup_setFields_ne (fs : List (String × JSValue)) (k k' : String) (v : JSValue)
    (h : k' ≠ k) : lookupField (setFields fs k v) k' = lookupField fs k' := by
  induction fs with
  | nil =>
      simp only [setFields, lookupField]
      rw [if_neg (fun hh => h hh.symm)]
  | cons a rest ih =>
      obtain ⟨k₀, v₀⟩ := a
      by_cases h₀ : k₀ = k
      · subst h₀
        simp only [setFields, if_pos rfl, lookupField]
        rw [if_neg (fun hh => h hh.symm), if_neg (fun hh => h hh.symm)]
      · simp [setFields, h₀, lookupField, ih]

theorem getField_setField_ne (d : JSValue) (k k' : String) (v : JSValue) (h : k' ≠ k) :
    getField (setField d k v) k' = getField d k' := by
  cases d <;> simp [getField, setField, lookup_setFields_ne _ _ _ _ h]

/-- Object-ness is preserved by property assignment. -/
theorem setField_obj (fs : List (String × JSValue)) (k : String) (v : JSValue) :
    setField (.obj fs) k v = .obj (setFields fs k v) := rfl

theorem fillTook_obj (fs : List (String × JSValue)) :
    ∃ fs', fillTook (.obj fs) = .obj fs' := by
  unfold fillTook
  match h : getField (.obj fs) "took" with
  | some (.num q) => exact ⟨fs, rfl⟩
  | some (.null) | some (.bool _) | some (.str _) | some (.arr _) | some (.obj _) | none =>
      exact ⟨setFields fs "took" (.num 0), by simp [h, setField]⟩

theorem fillShardsInfo_obj (fs : List (String × JSValue)) :
    ∃ fs', fillShardsInfo (.obj fs) = .obj fs' := by
  unfold fillShardsInfo
  match h : getField (.obj fs) "_shards" with
  | some v =>
      by_cases ht : truthy v
      · exact ⟨fs, by simp [h, ht]⟩
      · exact ⟨setFields fs "_shards" (defaultShards (shardCount (.obj fs))),
          by simp [h, ht, setField]⟩
  | none =>
      exact ⟨setFields fs "_shards" (defaultShards (shardCount (.obj fs))),
        by simp [h, setField]⟩

theorem fillHits_obj (fs : List (String × JSValue)) :
    ∃ fs', fillHits (.obj fs) = .obj fs' := by
  unfold fillHits
  match h : getField (.obj fs) "hits" with
  | some v =>
      by_cases ht : truthy v
      · exact ⟨fs, by simp [h, ht]⟩
      · exact ⟨setFields fs "hits" defaultHits, by simp [h, ht, setField]⟩
  | none => exact ⟨setFields fs "hits" defaultHits, by simp [h, setField]⟩

theorem getField_fillTook_ne (d : JSValue) (k : String) (h : k ≠ "took") :
    getField (fillTook d) k = getField d k := by
  unfold fillTook
  match ht : getField d "took" with
  | some (.num q) => rfl
  | some (.null) | some (.bool _) | some (.str _) | some (.arr _) | some (.obj _) | none =>
      simp [ht, getField_setField_ne _ _ _ _ h]

theorem getField_fillShardsInfo_ne (d : JSValue) (k : String) (h : k ≠ "_shards") :
    getField (fillShardsInfo d) k = getField d k := by
  unfold fillShardsInfo
  match ht : getField d "_shards" with
  | some v =>
      by_cases htr : truthy v
      · simp [htr]
      · simp [htr, getField_setField_ne _ _ _ _ h]
  | none => simp [getField_setField_ne _ _ _ _ h]

theorem getField_fillHits_ne (d : JSValue) (k : String) (h : k ≠ "hits") :
    getField (fillHits d) k = getField d k := by
  unfold fillHits
  match ht : getField d "hits" with
  | some v =>
      by_cases htr : truthy v
      · simp [htr]
      · simp [htr, getField_setField_ne _ _ _ _ h]
  | none => simp [getField_setField_ne _ _ _ _ h]

theorem getField_fillDefaults_ne (d : JSValue) (k : String)
    (h1 : k ≠ "took") (h2 : k ≠ "_shards") (h3 : k ≠ "hits") :
    getField (fillDefaults d) k = getField d k := by
  unfold fillDefaults
  rw [getField_fillHits_ne _ _ h3, getField_fillShardsInfo_ne _ _ h2,
    getField_fillTook_ne _ _ h1]

theorem fillDefaults_obj (fs : List (String × JSValue)) :
    ∃ fs', fillDefaults (.obj fs) = .obj fs' := by
  unfold fillDefaults
  obtain ⟨fs1, h1⟩ := fillTook_obj fs
  rw [h1]
  obtain ⟨fs2, h2⟩ := fillShardsInfo_obj fs1
  rw [h2]
  exact fillHits_obj fs2

theorem fillTook_id (d : JSValue) (h : ∃ q, getField d "took" = some (.num q)) :
    fillTook d = d := by
  obtain ⟨q, hq⟩ := h
  unfold fillTook
  rw [hq]

theorem fillShardsInfo_id (d : JSValue)
    (h : ∃ v, getField d "_shards" = some v ∧ truthy v = true) :
    fillShardsInfo d = d := by
  obtain ⟨v, hv, ht⟩ := h
  unfold fillShardsInfo
  rw [hv]
  simp [ht]

theorem fillHits_id (d : JSValue) (h : ∃ v, getField d "hits" = some v ∧ truthy v = true) :
    fillHits d = d := by
  obtain ⟨v, hv, ht⟩ := h
  unfold fillHits
  rw [hv]
  simp [ht]

theorem getField_fillTook_took (fs : List (String × JSValue)) :
    ∃ q, getField (fillTook (.obj fs)) "took" = some (.num q) := by
  unfold fillTook
  match h : getField (.obj fs) "took" with
  | some (.num q) => exact ⟨q, h⟩
  | some (.null) | some (.bool _) | some (.str _) | some (.arr _) | some (.obj _) | none =>
      exact ⟨0, by simp [h, setField, getField, lookup_setFields_self]⟩

theorem getField_fillShardsInfo_shards (fs : List (String × JSValue)) :
    ∃ v, getField (fillShardsInfo (.obj fs)) "_shards" = some v ∧ truthy v = true := by
  unfold fillShardsInfo
  match h : getField (.obj fs) "_shards" with
  | some v =>
      by_cases ht : truthy v
      · exact ⟨v, by simp [h, ht], ht⟩
      · refine ⟨defaultShards (shardCount (.obj fs)), ?_, rfl⟩
        simp only [h, if_neg ht]
        simp [setField, getField, lookup_setFields_self]
  | none =>
      refine ⟨defaultShards (shardCount (.obj fs)), ?_, rfl⟩
      simp only [h]
      simp [setField, getField, lookup_setFields_self]

theorem getField_fillHits_hits (fs : List (String × JSValue)) :
    ∃ v, getField (fillHits (.obj fs)) "hits" = some v ∧ truthy v = true := by
  unfold fillHits
  match h : getField (.obj fs) "hits" with
  | some v =>
      by_cases ht : truthy v
      · exact ⟨v, by simp [h, ht], ht⟩
      · refine ⟨defaultHits, ?_, rfl⟩
        simp only [h, if_neg ht]
        simp [setField, getField, lookup_setFields_self]
  | none =>
      refine ⟨defaultHits, ?_, rfl⟩
      simp only [h]
      simp [setField, getField, lookup_setFields_self]

/-- Default backfilling is idempotent: a second pass changes nothing. -/
theorem fillDefaults_idem (fs : List (String × JSValue)) :
    fillDefaults (fillDefaults (.obj fs)) = fillDefaults (.obj fs) := by
  obtain ⟨fs1, h1⟩ := fillTook_obj fs
  obtain ⟨fs2, h2⟩ := fillShardsInfo_obj fs1
  obtain ⟨fs3, h3⟩ := fillHits_obj fs2
  have hd : fillDefaults (.obj fs) = .obj fs3 := by
    unfold fillDefaults
    rw [h1, h2, h3]
  have htook : ∃ q, getField (.obj fs3 : JSValue) "took" = some (.num q) := by
    obtain ⟨q, hq⟩ := getField_fillTook_took fs
    refine ⟨q, ?_⟩
    rw [← h3, ← h2]
    rw [getField_fillHits_ne _ _ (by decide), getField_fillShardsInfo_ne _ _ (by decide)]
    rw [h1] at hq
    exact hq
  have hshards : ∃ v, getField (.obj fs3 : JSValue) "_shards" = some v ∧ truthy v = true := by
    obtain ⟨v, hv, ht⟩ := getField_fillShardsInfo_shards fs1
    refine ⟨v, ?_, ht⟩
    rw [← h3]
    rw [getField_fillHits_ne _ _ (by decide)]
    rw [h2] at hv
    exact hv
  have hhits : ∃ v, getField (.obj fs3 : JSValue) "hits" = some v ∧ truthy v = true := by
    obtain ⟨v, hv, ht⟩ := getField_fillHits_hits fs2
    rw [h3] at hv
    exact ⟨v, hv, ht⟩
  rw [hd]
  unfold fillDefaults
  rw [fillTook_id _ htook, fillShardsInfo_id _ hshards, fillHits_id _ hhits]

/-- Inversion of a successful validation: the document is an object whose
`profile` is a truthy `typeof`-object carrying a non-empty `shards` array
whose every shard passes the per-shard check, and the returned document is
the default-backfilled input. -/
theorem validateProfileData_valid_shape (v : JSValue)
    (h : (validateProfileData v).1.isValid = true) :
    ∃ fs p shards, v = .obj fs ∧
      lookupField fs "profile" = some p ∧
      (truthy p && typeofObject p) = true ∧
      getField p "shards" = some (.arr shards) ∧
      shards.length ≠ 0 ∧ validateShards shards 0 = none ∧
      (validateProfileData v).2 = fillDefaults v := by
  unfold validateProfileData at h
  split at h
  · simp at h
  · split at h
    · simp at h
    · rename_i p hp
      split at h
      · simp at h
      · rename_i htp
        split at h
        · rename_i shards hs
          split at h
          · simp at h
          · rename_i hlen
            split at h
            · simp at h
            · rename_i hv
              obtain ⟨fs, rfl⟩ : ∃ fs, v = .obj fs := by
                cases v with
                | obj fs => exact ⟨fs, rfl⟩
                | null => simp [getField] at hp
                | bool b => simp [getField] at hp
                | num q => simp [getField] at hp
                | str s => simp [getField] at hp
                | arr l => simp [getField] at hp
              rw [getField] at hp
              have htp' : (truthy p && typeofObject p) = true := by
                simpa using htp
              refine ⟨fs, p, shards, rfl, hp, htp', hs, hlen, hv, ?_⟩
              unfold validateProfileData
              rw [getField, hp]
              have hobj : (!(truthy (JSValue.obj fs) && typeofObject (JSValue.obj fs))) = false :=
                rfl
              simp [hobj, htp', hs, hlen, hv]
        · simp at h

/-- Forward evaluation of `validateProfileData` on a document that passes
every check. -/
theorem validateProfileData_eval_success (fs : List (String × JSValue)) (p : JSValue)
    (shards : List JSValue) (hp : lookupField fs "profile" = some p)
    (htp : (truthy p && typeofObject p) = true)
    (hs : getField p "shards" = some (.arr shards))
    (hlen : shards.length ≠ 0) (hv : validateShards shards 0 = none) :
    validateProfileData (.obj fs) = (⟨true, none⟩, fillDefaults (.obj fs)) := by
  unfold validateProfileData
  rw [getField, hp]
  have hobj : (!(truthy (JSValue.obj fs) && typeofObject (JSValue.obj fs))) = false := rfl
  simp [hobj, htp, hs, hlen, hv]

/-- The per-shard loop accepts every list of shards that are objects with a
`searches` array, whatever those arrays contain. -/
theorem validateShards_ok (shards : List JSValue) (i : Nat)
    (hall : ∀ s ∈ shards, ∃ sf searches, s = JSValue.obj sf ∧
      lookupField sf "searches" = some (.arr searches)) :
    validateShards shards i = none := by
  induction shards generalizing i with
  | nil => rfl
  | cons s rest ih =>
      obtain ⟨sf, searches, rfl, hsrch⟩ := hall s (by simp)
      have hobj : (!(truthy (JSValue.obj sf) && typeofObject (JSValue.obj sf))) = false := rfl
      simp only [validateShards, hobj, Bool.false_eq_true, if_false, getField, hsrch]
      exact ih (i + 1) (fun s hs => hall s (List.mem_cons_of_mem _ hs))

/-- A primitive (or `null`) value never passes the `profile` object check. -/
theorem isPrimitive_not_object (p : JSValue) (h : isPrimitive p = true) :
    (truthy p && typeofObject p) = false := by
  cases p <;> simp_all [isPrimitive, truthy, typeofObject]

/-- Counterexample to C3 as stated: a document whose `profile` is present
but is a number (not an object) is rejected with `MISSING_PROFILE_DATA`,
not with `INVALID_PROFILE_FORMAT` — the non-object case is folded into the
same check as the absent case. -/
theorem profile_present_nonobject_cex :
    errType (validateProfileData (.obj [("profile", .num 5)])) ≠
        some .INVALID_PROFILE_FORMAT ∧
      errType (validateProfileData (.obj [("profile", .num 5)])) =
        some .MISSING_PROFILE_DATA := by
  constructor
  · decide
  · decide

/-- C3 (amended): for a decoded input object, an absent `profile` key is
rejected with `MISSING_PROFILE_DATA`; a `profile` that is present but a
primitive or `null` (not an object) is rejected with `MISSING_PROFILE_DATA`
as well, the code folding both cases into one check; only a `profile` that
is an array (a `typeof`-object that is not a JSON object) is rejected with
`INVALID_PROFILE_FORMAT`, through the subsequent `profile.shards` check. -/
theorem validateProfileData_profile_checks (fields : List (String × JSValue)) :
    (lookupField fields "profile" = none →
      errType (validateProfileData (.obj fields)) = some .MISSING_PROFILE_DATA) ∧
    (∀ p, lookupField fields "profile" = some p → isPrimitive p = true →
      errType (validateProfileData (.obj fields)) = some .MISSING_PROFILE_DATA) ∧
    (∀ l, lookupField fields "profile" = some (.arr l) →
      errType (validateProfileData (.obj fields)) = some .INVALID_PROFILE_FORMAT) := by
  have hobj : (!(truthy (JSValue.obj fields) && typeofObject (JSValue.obj fields))) = false :=
    rfl
  refine ⟨?_, ?_, ?_⟩
  · intro hp
    unfold validateProfileData
    rw [getField, hp]
    simp [hobj, errType]
  · intro p hp hprim
    unfold validateProfileData
    rw [getField, hp]
    simp [hobj, isPrimitive_not_object p hprim, errType]
  · intro l hp
    unfold validateProfileData
    rw [getField, hp]
    simp [hobj, errType, truthy, typeofObject, getField]

/-- Witness for the amended C3 at concrete inputs. -/
theorem validateProfileData_profile_checks_witness :
    errType (validateProfileData (.obj [("profile", .str "x")])) =
      some .MISSING_PROFILE_DATA :=
  (validateProfileData_profile_checks [("profile", .str "x")]).2.1 (.str "x") rfl rfl

/-- C7: with `profile` an object, a present non-array `profile.shards` is a
shape defect (`INVALID_PROFILE_FORMAT`) while an empty `shards` array is a
no-data condition (`MISSING_PROFILE_DATA`). -/
theorem validateProfileData_shards_shape_vs_empty (fields pf : List (String × JSValue))
    (hp : lookupField fields "profile" = some (.obj pf)) :
    (∀ s, lookupField pf "shards" = some s → (∀ l, s ≠ .arr l) →
      errType (validateProfileData (.obj fields)) = some .INVALID_PROFILE_FORMAT) ∧
    (lookupField pf "shards" = some (.arr []) →
      errType (validateProfileData (.obj fields)) = some .MISSING_PROFILE_DATA) := by
  have hobj : (!(truthy (JSValue.obj fields) && typeofObject (JSValue.obj fields))) = false :=
    rfl
  have hpobj : (!(truthy (JSValue.obj pf) && typeofObject (JSValue.obj pf))) = false := rfl
  constructor
  · intro s hs hnarr
    unfold validateProfileData
    rw [getField, hp]
    simp only [hobj, Bool.false_eq_true, if_false, hpobj, getField, hs]
    match s with
    | .null | .bool _ | .num _ | .str _ | .obj _ => simp [errType]
    | .arr l => exact absurd rfl (hnarr l)
  · intro hs
    unfold validateProfileData
    rw [getField, hp]
    simp only [hobj, Bool.false_eq_true, if_false, hpobj, getField, hs]
    simp [errType]

/-- Witness for C7 at concrete inputs. -/
theorem validateProfileData_shards_shape_vs_empty_witness :
    errType (validateProfileData (.obj [("profile", .obj [("shards", .num 3)])])) =
        some .INVALID_PROFILE_FORMAT ∧
      errType (validateProfileData (.obj [("profile", .obj [("shards", .arr [])])])) =
        some .MISSING_PROFILE_DATA :=
  ⟨(validateProfileData_shards_shape_vs_empty [("profile", .obj [("shards", .num 3)])]
      [("shards", .num 3)] rfl).1 (.num 3) rfl (fun _ h => JSValue.noConfusion h),
   (validateProfileData_shards_shape_vs_empty [("profile", .obj [("shards", .arr [])])]
      [("shards", .arr [])] rfl).2 rfl⟩

/-- C10 (implicit): validation is shallow below the shard level — once
`profile` is an object with a non-empty `shards` array whose every element
is an object carrying a `searches` array, the document validates, whatever
the `searches` arrays contain and whatever any `aggregations` field is. -/
theorem validateProfileData_shallow_below_shards (fields pf : List (String × JSValue))
    (shards : List JSValue)
    (hp : lookupField fields "profile" = some (.obj pf))
    (hs : lookupField pf "shards" = some (.arr shards))
    (hne : shards ≠ [])
    (hsh : ∀ s ∈ shards, ∃ sf searches, s = JSValue.obj sf ∧
      lookupField sf "searches" = some (.arr searches)) :
    (validateProfileData (.obj fields)).1.isValid = true := by
  have heval := validateProfileData_eval_success fields (.obj pf) shards hp rfl
    (by rw [getField, hs]) (by simpa using hne) (validateShards_ok shards 0 hsh)
  rw [heval]

/-- Witness for C10: the `searches` entries are arbitrary junk (a number and
a string), `aggregations` is a number, and the document still validates. -/
theorem validateProfileData_shallow_below_shards_witness :
    (validateProfileData (.obj [("profile", .obj [("shards", .arr [.obj
      [("searches", .arr [.num 1, .str "junk"]), ("aggregations", .num 7)]])])])).1.isValid =
      true :=
  validateProfileData_shallow_below_shards
    [("profile", .obj [("shards", .arr [.obj
      [("searches", .arr [.num 1, .str "junk"]), ("aggregations", .num 7)]])])]
    [("shards", .arr [.obj [("searches", .arr [.num 1, .str "junk"]),
      ("aggregations", .num 7)]])]
    [.obj [("searches", .arr [.num 1, .str "junk"]), ("aggregations", .num 7)]]
    rfl rfl (by simp)
    (fun s hs => by
      rw [List.mem_singleton] at hs
      exact ⟨[("searches", .arr [.num 1, .str "junk"]), ("aggregations", .num 7)],
        [.num 1, .str "junk"], hs, rfl⟩)

/-- C9: serializing a validated document and re-parsing it validates again
to the very same document — serialization always succeeds on decoded data,
the platform parse/stringify pair round-trips (modelled by `jsonReparse`),
and the validator's default-backfilling is idempotent, so the second pass
changes nothing. -/
theorem serialize_reparse_validate_roundtrip (v : JSValue)
    (h : (validateProfileData v).1.isValid = true) :
    (serializeProfileData (validateProfileData v).2).isSome = true ∧
    validateProfileData (jsonReparse (validateProfileData v).2) =
      ({ isValid := true, error := none }, jsonReparse (validateProfileData v).2) := by
  obtain ⟨fs, p, shards, rfl, hp, htp, hshards, hlen, hv, hfill⟩ :=
    validateProfileData_valid_shape v h
  refine ⟨by simp [serializeProfileData], ?_⟩
  rw [hfill]
  unfold jsonReparse
  obtain ⟨fs', hfs'⟩ := fillDefaults_obj fs
  have hpres := getField_fillDefaults_ne (.obj fs) "profile"
    (by decide) (by decide) (by decide)
  rw [hfs', getField, getField, hp] at hpres
  have hfix : fillDefaults (.obj fs') = .obj fs' := by
    have hidem := fillDefaults_idem fs
    rw [hfs'] at hidem
    exact hidem
  rw [hfs', validateProfileData_eval_success fs' p shards hpres htp hshards hlen hv, hfix]

/-- Witness for C9 at a concrete validated document. -/
theorem serialize_reparse_validate_roundtrip_witness :
    (serializeProfileData (validateProfileData (.obj [("profile", .obj [("shards", .arr
        [.obj [("searches", .arr [])]])])])).2).isSome = true ∧
    validateProfileData (jsonReparse (validateProfileData (.obj [("profile", .obj
        [("shards", .arr [.obj [("searches", .arr [])]])])])).2) =
      ({ isValid := true, error := none },
        jsonReparse (validateProfileData (.obj [("profile", .obj [("shards", .arr
          [.obj [("searches", .arr [])]])])])).2) :=
  serialize_reparse_validate_roundtrip
    (.obj [("profile", .obj [("shards", .arr [.obj [("searches", .arr [])]])])]) rfl

/-! ### Threshold/color classifier (`constants`, `getBarColor`) -/

/-- `PROFILER_COLORS.RED`. -/
def PROFILER_COLORS_RED : String := "#F66"

/-- `PROFILER_COLORS.ORANGE`. -/
def PROFILER_COLORS_ORANGE : String := "#FDB462"

/-- `PROFILER_COLORS.GREEN`. -/
def PROFILER_COLORS_GREEN : String := "#90EE90"

/-- `DEFAULT_THRESHOLDS.RED`. -/
def DEFAULT_THRESHOLDS_RED : ℚ := 80

/-- `DEFAULT_THRESHOLDS.ORANGE`. -/
def DEFAULT_THRESHOLDS_ORANGE : ℚ := 50

/-- `getBarColor` from `constants`: `ratio = time / maxTime`; red above
`redThreshold/100`, orange above `orangeThreshold/100`, green otherwise. -/
def getBarColor (time maxTime redThreshold orangeThreshold : ℚ) : String :=
  let ratio := time / maxTime
  if ratio > redThreshold / 100 then PROFILER_COLORS_RED
  else if ratio > orangeThreshold / 100 then PROFILER_COLORS_ORANGE
  else PROFILER_COLORS_GREEN

/-- C2: for a nonzero maximum, `getBarColor` classifies RED exactly when
`(value/max)*100 > redCutoff`, otherwise ORANGE exactly when
`(value/max)*100 > orangeCutoff`, otherwise GREEN — strict inequalities at
both cutoffs, so equality at a cutoff falls to the lower bucket — and in
particular classify(90,100,80,50)=RED, classify(80,100,80,50)=ORANGE,
classify(50,100,80,50)=GREEN. -/
theorem getBarColor_spec :
    (∀ v m r o : ℚ, m ≠ 0 →
      (getBarColor v m r o = PROFILER_COLORS_RED ↔ v / m * 100 > r) ∧
      (getBarColor v m r o = PROFILER_COLORS_ORANGE ↔
        ¬ v / m * 100 > r ∧ v / m * 100 > o) ∧
      (getBarColor v m r o = PROFILER_COLORS_GREEN ↔
        ¬ v / m * 100 > r ∧ ¬ v / m * 100 > o)) ∧
    getBarColor 90 100 80 50 = PROFILER_COLORS_RED ∧
    getBarColor 80 100 80 50 = PROFILER_COLORS_ORANGE ∧
    getBarColor 50 100 80 50 = PROFILER_COLORS_GREEN := by
  have hscale : ∀ x c : ℚ, x > c / 100 ↔ x * 100 > c := by
    intro x c
    constructor
    · intro h
      have := (div_lt_iff₀ (by norm_num : (0:ℚ) < 100)).mp h
      linarith
    · intro h
      have : c / 100 < x := (div_lt_iff₀ (by norm_num : (0:ℚ) < 100)).mpr (by linarith)
      exact this
  refine ⟨?_, by norm_num [getBarColor], by norm_num [getBarColor],
    by norm_num [getBarColor]⟩
  intro v m r o _
  unfold getBarColor
  by_cases hr : v / m > r / 100
  · simp only [hr, if_true]
    have hr' : v / m * 100 > r := (hscale (v / m) r).mp hr
    refine ⟨by simp [hr'], ?_, ?_⟩
    · simp [PROFILER_COLORS_RED, PROFILER_COLORS_ORANGE, hr']
    · simp [PROFILER_COLORS_RED, PROFILER_COLORS_GREEN, hr']
  · have hr' : ¬ v / m * 100 > r := fun hh => hr ((hscale (v / m) r).mpr hh)
    simp only [hr, if_false]
    by_cases ho : v / m > o / 100
    · have ho' : v / m * 100 > o := (hscale (v / m) o).mp ho
      simp only [ho, if_true]
      refine ⟨?_, ?_, ?_⟩
      · simp [PROFILER_COLORS_RED, PROFILER_COLORS_ORANGE, hr']
      · simp [hr', ho']
      · simp [PROFILER_COLORS_ORANGE, PROFILER_COLORS_GREEN, ho']
    · have ho' : ¬ v / m * 100 > o := fun hh => ho ((hscale (v / m) o).mpr hh)
      simp only [ho, if_false]
      refine ⟨?_, ?_, ?_⟩
      · simp [PROFILER_COLORS_RED, PROFILER_COLORS_GREEN, hr']
      · simp [PROFILER_COLORS_ORANGE, PROFILER_COLORS_GREEN, ho']
      · simp [hr', ho']

/-- Witness for C2: the universally quantified part applied at the spec's
boundary example, `max = 100`, value `80` equal to the red cutoff. -/
theorem getBarColor_spec_witness :
    getBarColor 80 100 80 50 = PROFILER_COLORS_ORANGE :=
  ((getBarColor_spec.1 80 100 80 50 (by norm_num)).2.1).mpr (by norm_num)

/-! ### Tree normalizer (`QueryTree.processedQueries`) -/

/-- A `QueryProfile` / `AggregationProfile` node as consumed by the tree
normalizer: `transformQuery` treats both alike, reading `type`,
`description`, `time_in_nanos`, `breakdown` and the optional `children`
list.  A possibly-undefined `breakdown` is modelled with `Option` (the
source guards with `|| {}`); `time_in_nanos` is a non-negative integer
nanosecond count (the source guards with `|| 0`). -/
inductive ProfileNode where
  | mk (type description : String) (time_in_nanos : Nat)
      (breakdown : Option (List (String × Int)))
      (children : Option (List ProfileNode))

/-- A `CollectorProfile` node: `name`, `reason`, `time_in_nanos`, an
optional `breakdown` and optional `children`. -/
inductive CollectorNode where
  | mk (name reason : String) (time_in_nanos : Nat)
      (breakdown : Option (List (String × Int)))
      (children : Option (List CollectorNode))

/-- A `ProcessedQuery` display node produced by the normalizer. -/
inductive ProcessedQuery where
  | mk (id queryName type description : String) (time_ms : ℚ)
      (time_in_nanos : Nat) (percentage : ℚ)
      (breakdown rawBreakdown : List (String × Int))
      (children : Option (List ProcessedQuery))

def ProfileNode.time_in_nanos : ProfileNode → Nat
  | .mk _ _ t _ _ => t

def ProfileNode.type : ProfileNode → String
  | .mk ty _ _ _ _ => ty

def ProfileNode.children : ProfileNode → Option (List ProfileNode)
  | .mk _ _ _ _ ch => ch

def CollectorNode.time_in_nanos : CollectorNode → Nat
  | .mk _ _ t _ _ => t

def ProcessedQuery.id : ProcessedQuery → String
  | .mk i _ _ _ _ _ _ _ _ _ => i

def ProcessedQuery.queryName : ProcessedQuery → String
  | .mk _ qn _ _ _ _ _ _ _ _ => qn

def ProcessedQuery.type : ProcessedQuery → String
  | .mk _ _ ty _ _ _ _ _ _ _ => ty

def ProcessedQuery.description : ProcessedQuery → String
  | .mk _ _ _ d _ _ _ _ _ _ => d

def ProcessedQuery.time_ms : ProcessedQuery → ℚ
  | .mk _ _ _ _ tms _ _ _ _ _ => tms

def ProcessedQuery.time_in_nanos : ProcessedQuery → Nat
  | .mk _ _ _ _ _ t _ _ _ _ => t

def ProcessedQuery.percentage : ProcessedQuery → ℚ
  | .mk _ _ _ _ _ _ pc _ _ _ => pc

def ProcessedQuery.children : ProcessedQuery → Option (List ProcessedQuery)
  | .mk _ _ _ _ _ _ _ _ _ ch => ch

/-- The active tab of the `QueryTree` component. -/
inductive Tab where
  | search : Tab
  | aggregation : Tab
deriving DecidableEq

/-- JavaScript `s || d` on strings: the empty string is falsy. -/
def jsOr (s d : String) : String :=
  if s = "" then d else s

/-- `totalTime > 0 ? (t / totalTime) * 100 : 0`. -/
def pct (total t : Nat) : ℚ :=
  if 0 < total then (t : ℚ) / (total : ℚ) * 100 else 0

/-- `activeData`: the root-level array for the active tab. -/
def activeData (tab : Tab) (queries : List ProfileNode)
    (aggregations : Option (List ProfileNode)) : List ProfileNode :=
  match tab with
  | .aggregation => aggregations.getD []
  | .search => queries

/-- The `totalTime` accumulation of `processedQueries`: root-level sum,
plus `rewriteTime` (search tab, only when defined and positive), plus the
root-level collector sum (search tab, only when collectors are non-empty). -/
def totalTime (tab : Tab) (active : List ProfileNode) (rewriteTime : Option Nat)
    (collectors : Option (List CollectorNode)) : Nat :=
  let base := (active.map ProfileNode.time_in_nanos).sum
  if tab = .search then
    let withRewrite :=
      match rewriteTime with
      | some r => if 0 < r then base + r else base
      | none => base
    match collectors with
    | some cs =>
        if 0 < cs.length then withRewrite + (cs.map CollectorNode.time_in_nanos).sum
        else withRewrite
    | none => withRewrite
  else base

mutual
/-- `transformQuery` of `QueryTree.processedQueries`: node ids are
`"query-" ++ nodeId` where `nodeId` concatenates the parent path and the
index among siblings (root nodes use the bare index as path). -/
def transformQuery (total : Nat) : ProfileNode → Nat → String → ProcessedQuery
  | .mk ty desc t bd ch, index, parentPath =>
      let nodeId := if parentPath = "" then toString index
        else parentPath ++ "-" ++ toString index
      .mk ("query-" ++ nodeId) (jsOr ty "Unknown Query") (jsOr ty "Unknown") (jsOr desc "")
        ((t : ℚ) / 1000000) t (pct total t) (bd.getD []) (bd.getD [])
        (transformQueryChildren total ch nodeId)

/-- `query.children?.map(...)`: an absent children list stays absent. -/
def transformQueryChildren (total : Nat) :
    Option (List ProfileNode) → String → Option (List ProcessedQuery)
  | none, _ => none
  | some l, nodeId => some (transformQueryList total l 0 nodeId)

/-- Index-passing `map` over a children list. -/
def transformQueryList (total : Nat) :
    List ProfileNode → Nat → String → List ProcessedQuery
  | [], _, _ => []
  | q :: rest, i, nodeId =>
      transformQuery total q i nodeId :: transformQueryList total rest (i + 1) nodeId
end

/-- The synthetic `Rewrite` node appended on the search tab. -/
def rewriteNode (total rewriteTime : Nat) : ProcessedQuery :=
  .mk "rewrite" "Rewrite" "Rewrite" "Query rewrite time"
    ((rewriteTime : ℚ) / 1000000) rewriteTime (pct total rewriteTime) [] [] none

mutual
/-- `transformCollector` of `QueryTree.processedQueries`: root collectors
get id `"collector-" ++ index`; children concatenate the parent path. -/
def transformCollector (total : Nat) : CollectorNode → Nat → String → ProcessedQuery
  | .mk name reason t bd ch, index, parentPath =>
      let nodeId := if parentPath = "" then "collector-" ++ toString index
        else parentPath ++ "-" ++ toString index
      .mk nodeId (jsOr name "Collector") (jsOr name "Collector") (jsOr reason "")
        ((t : ℚ) / 1000000) t (pct total t) (bd.getD []) (bd.getD [])
        (transformCollectorChildren total ch nodeId)

def transformCollectorChildren (total : Nat) :
    Option (List CollectorNode) → String → Option (List ProcessedQuery)
  | none, _ => none
  | some l, nodeId => some (transformCollectorList total l 0 nodeId)

def transformCollectorList (total : Nat) :
    List CollectorNode → Nat → String → List ProcessedQuery
  | [], _, _ => []
  | c :: rest, i, nodeId =>
      transformCollector total c i nodeId :: transformCollectorList total rest (i + 1) nodeId
end

/-- `QueryTree.processedQueries`: empty active data short-circuits to `[]`;
otherwise the transformed roots, then (search tab only) the `Rewrite` node
when `rewriteTime` is defined and positive, then one node per top-level
collector when collectors are non-empty. -/
def processedQueries (tab : Tab) (queries : List ProfileNode)
    (aggregations : Option (List ProfileNode)) (rewriteTime : Option Nat)
    (collectors : Option (List CollectorNode)) : List ProcessedQuery :=
  let active := activeData tab queries aggregations
  if active.length = 0 then []
  else
    let total := totalTime tab active rewriteTime collectors
    let result := transformQueryList total active 0 ""
    if tab = .search then
      let withRewrite :=
        match rewriteTime with
        | some r => if 0 < r then result ++ [rewriteNode total r] else result
        | none => result
      match collectors with
      | some cs =>
          if 0 < cs.length then withRewrite ++ transformCollectorList total cs 0 ""
          else withRewrite
      | none => withRewrite
    else result

mutual
/-- All nodes of a display tree, at every depth. -/
def allNodesP : ProcessedQuery → List ProcessedQuery
  | .mk i qn ty d tms t pc bd rbd ch =>
      .mk i qn ty d tms t pc bd rbd ch :: allNodesOpt ch

def allNodesOpt : Option (List ProcessedQuery) → List ProcessedQuery
  | none => []
  | some l => allNodesList l

def allNodesList : List ProcessedQuery → List ProcessedQuery
  | [] => []
  | p :: rest => allNodesP p ++ allNodesList rest
end

/-- All nodes of a display forest, at every depth. -/
def allNodesForest (l : List ProcessedQuery) : List ProcessedQuery :=
  allNodesList l

mutual
theorem transformQuery_pct (total : Nat) (q : ProfileNode) (i : Nat) (path : String) :
    ∀ n ∈ allNodesP (transformQuery total q i path),
      n.percentage = pct total n.time_in_nanos := by
  match q with
  | .mk ty desc t bd ch =>
      intro n hn
      simp only [transformQuery, allNodesP] at hn
      rcases List.mem_cons.mp hn with h | h
      · subst h; rfl
      · exact transformQueryChildren_pct total ch _ n h

theorem transformQueryChildren_pct (total : Nat) (ch : Option (List ProfileNode))
    (nodeId : String) :
    ∀ n ∈ allNodesOpt (transformQueryChildren total ch nodeId),
      n.percentage = pct total n.time_in_nanos := by
  match ch with
  | none => intro n hn; simp [transformQueryChildren, allNodesOpt] at hn
  | some l =>
      intro n hn
      simp only [transformQueryChildren, allNodesOpt] at hn
      exact transformQueryList_pct total l 0 nodeId n hn

theorem transformQueryList_pct (total : Nat) (l : List ProfileNode) (i : Nat)
    (nodeId : String) :
    ∀ n ∈ allNodesList (transformQueryList total l i nodeId),
      n.percentage = pct total n.time_in_nanos := by
  match l with
  | [] => intro n hn; simp [transformQueryList, allNodesList] at hn
  | q :: rest =>
      intro n hn
      simp only [transformQueryList, allNodesList] at hn
      rcases List.mem_append.mp hn with h | h
      · exact transformQuery_pct total q i nodeId n h
      · exact transformQueryList_pct total rest (i + 1) nodeId n h
end

mutual
theorem transformCollector_pct (total : Nat) (c : CollectorNode) (i : Nat) (path : String) :
    ∀ n ∈ allNodesP (transformCollector total c i path),
      n.percentage = pct total n.time_in_nanos := by
  match c with
  | .mk name reason t bd ch =>
      intro n hn
      simp only [transformCollector, allNodesP] at hn
      rcases List.mem_cons.mp hn with h | h
      · subst h; rfl
      · exact transformCollectorChildren_pct total ch _ n h

theorem transformCollectorChildren_pct (total : Nat) (ch : Option (List CollectorNode))
    (nodeId : String) :
    ∀ n ∈ allNodesOpt (transformCollectorChildren total ch nodeId),
      n.percentage = pct total n.time_in_nanos := by
  match ch with
  | none => intro n hn; simp [transformCollectorChildren, allNodesOpt] at hn
  | some l =>
      intro n hn
      simp only [transformCollectorChildren, allNodesOpt] at hn
      exact transformCollectorList_pct total l 0 nodeId n hn

theorem transformCollectorList_pct (total : Nat) (l : List CollectorNode) (i : Nat)
    (nodeId : String) :
    ∀ n ∈ allNodesList (transformCollectorList total l i nodeId),
      n.percentage = pct total n.time_in_nanos := by
  match l with
  | [] => intro n hn; simp [transformCollectorList, allNodesList] at hn
  | c :: rest =>
      intro n hn
      simp only [transformCollectorList, allNodesList] at hn
      rcases List.mem_append.mp hn with h | h
      · exact transformCollector_pct total c i nodeId n h
      · exact transformCollectorList_pct total rest (i + 1) nodeId n h
end

theorem allNodesList_append (l₁ l₂ : List ProcessedQuery) :
    allNodesList (l₁ ++ l₂) = allNodesList l₁ ++ allNodesList l₂ := by
  induction l₁ with
  | nil => simp [allNodesList]
  | cons p rest ih => simp [allNodesList, ih]

/-- The synthetic rewrite segment of the search-tab result: one `Rewrite`
node exactly when `rewriteTime` is defined and positive. -/
def rewritePart (total : Nat) (rw : Option Nat) : List ProcessedQuery :=
  match rw with
  | some r => if 0 < r then [rewriteNode total r] else []
  | none => []

/-- The synthetic collector segment of the search-tab result: one node per
top-level collector exactly when the collectors list is defined and
non-empty. -/
def collectorPart (total : Nat) (cs : Option (List CollectorNode)) : List ProcessedQuery :=
  match cs with
  | some csl => if 0 < csl.length then transformCollectorList total csl 0 "" else []
  | none => []

/-- Search-tab decomposition of `processedQueries` (non-empty queries):
transformed roots, then the rewrite segment, then the collector segment. -/
theorem processedQueries_search_eq (qs : List ProfileNode)
    (aggs : Option (List ProfileNode)) (rw : Option Nat)
    (cs : Option (List CollectorNode)) (h : qs.length ≠ 0) :
    processedQueries .search qs aggs rw cs =
      transformQueryList (totalTime .search qs rw cs) qs 0 ""
        ++ rewritePart (totalTime .search qs rw cs) rw
        ++ collectorPart (totalTime .search qs rw cs) cs := by
  unfold processedQueries
  have hact : activeData .search qs aggs = qs := rfl
  rw [hact, if_neg h]
  simp only [if_pos rfl]
  match rw with
  | none =>
      match cs with
      | none => simp [rewritePart, collectorPart]
      | some csl =>
          by_cases hcs : 0 < csl.length
          · simp [hcs, rewritePart, collectorPart]
          · simp [hcs, rewritePart, collectorPart]
  | some r =>
      by_cases hr : 0 < r
      · match cs with
        | none => simp [hr, rewritePart, collectorPart]
        | some csl =>
            by_cases hcs : 0 < csl.length
            · simp [hr, hcs, rewritePart, collectorPart]
            · simp [hr, hcs, rewritePart, collectorPart]
      · match cs with
        | none => simp [hr, rewritePart, collectorPart]
        | some csl =>
            by_cases hcs : 0 < csl.length
            · simp [hr, hcs, rewritePart, collectorPart]
            · simp [hr, hcs, rewritePart, collectorPart]

/-- Aggregation-tab decomposition of `processedQueries`: only the
transformed aggregation roots, never a synthetic node. -/
theorem processedQueries_aggregation_eq (qs : List ProfileNode)
    (aggs : Option (List ProfileNode)) (rw : Option Nat)
    (cs : Option (List CollectorNode)) :
    processedQueries .aggregation qs aggs rw cs =
      transformQueryList (totalTime .aggregation (aggs.getD []) rw cs) (aggs.getD []) 0 "" := by
  unfold processedQueries
  have hact : activeData .aggregation qs aggs = aggs.getD [] := rfl
  rw [hact]
  by_cases h : (aggs.getD []).length = 0
  · rw [if_pos h]
    have : aggs.getD [] = [] := List.length_eq_zero.mp h
    rw [this]
    rfl
  · rw [if_neg h]
    rfl

theorem rewritePart_pct (total : Nat) (rw : Option Nat) :
    ∀ n ∈ allNodesList (rewritePart total rw),
      n.percentage = pct total n.time_in_nanos := by
  intro n hn
  match rw with
  | none => simp [rewritePart, allNodesList] at hn
  | some r =>
      by_cases hr : 0 < r
      · simp only [rewritePart, if_pos hr, allNodesList, allNodesP, rewriteNode,
          allNodesOpt, List.append_nil] at hn
        rcases List.mem_cons.mp hn with h | h
        · subst h; rfl
        · simp at h
      · simp [rewritePart, hr, allNodesList] at hn

theorem collectorPart_pct (total : Nat) (cs : Option (List CollectorNode)) :
    ∀ n ∈ allNodesList (collectorPart total cs),
      n.percentage = pct total n.time_in_nanos := by
  intro n hn
  match cs with
  | none => simp [collectorPart, allNodesList] at hn
  | some csl =>
      by_cases hcs : 0 < csl.length
      · simp only [collectorPart, if_pos hcs] at hn
        exact transformCollectorList_pct total csl 0 "" n hn
      · simp [collectorPart, hcs, allNodesList] at hn

/-- Every node of the produced forest carries `pct totalTime time_in_nanos`
with the one shared `totalTime` of the render pass. -/
theorem processedQueries_pct (tab : Tab) (qs : List ProfileNode)
    (aggs : Option (List ProfileNode)) (rw : Option Nat)
    (cs : Option (List CollectorNode)) :
    ∀ n ∈ allNodesForest (processedQueries tab qs aggs rw cs),
      n.percentage = pct (totalTime tab (activeData tab qs aggs) rw cs) n.time_in_nanos := by
  intro n hn
  match tab with
  | .aggregation =>
      rw [processedQueries_aggregation_eq] at hn
      exact transformQueryList_pct _ _ _ _ n hn
  | .search =>
      by_cases h : qs.length = 0
      · unfold processedQueries at hn
        rw [show activeData .search qs aggs = qs from rfl, if_pos h] at hn
        simp [allNodesForest, allNodesList] at hn
      · rw [processedQueries_search_eq qs aggs rw cs h] at hn
        rw [allNodesForest, allNodesList_append, allNodesList_append] at hn
        rcases List.mem_append.mp hn with h1 | h2
        · rcases List.mem_append.mp h1 with h3 | h4
          · exact transformQueryList_pct _ _ _ _ n h3
          · exact rewritePart_pct _ _ n h4
        · exact collectorPart_pct _ _ n h2

/-- The denominator exactly as the spec words it: the root-level sum for
the active tab, plus — search tab only — `rewrite_time` when positive and
the root-level collector sum when the collectors list is non-empty.
(Spec-side formula, compared against the source's `totalTime`.) -/
def specDenominator (tab : Tab) (active : List ProfileNode) (rw : Option Nat)
    (cs : Option (List CollectorNode)) : Nat :=
  (active.map ProfileNode.time_in_nanos).sum
    + (if tab = .search ∧ 0 < rw.getD 0 then rw.getD 0 else 0)
    + (if tab = .search ∧ 0 < (cs.getD []).length
       then ((cs.getD []).map CollectorNode.time_in_nanos).sum else 0)

/-- The spec's denominator formula agrees with the source's `totalTime`. -/
theorem specDenominator_eq_totalTime (tab : Tab) (active : List ProfileNode)
    (rw : Option Nat) (cs : Option (List CollectorNode)) :
    specDenominator tab active rw cs = totalTime tab active rw cs := by
  match tab with
  | .aggregation => simp [specDenominator, totalTime]
  | .search =>
      unfold specDenominator totalTime
      simp only [if_pos rfl, true_and]
      match rw with
      | none => match cs with
        | none => simp
        | some csl =>
            by_cases hcs : 0 < csl.length
            · simp [hcs]
            · simp [hcs]
      | some r =>
          by_cases hr : 0 < r
          · match cs with
            | none => simp [hr]
            | some csl =>
                by_cases hcs : 0 < csl.length
                · simp [hr, hcs]
                · simp [hr, hcs]
          · match cs with
            | none => simp [hr]
            | some csl =>
                by_cases hcs : 0 < csl.length
                · simp [hr, hcs]
                · simp [hr, hcs]

/-- C1: the percentage denominator of a render pass is the root-level sum
of the active tab's array, plus (search tab) `rewrite_time` when positive
and the root-level collector sum when collectors are non-empty, and this
single denominator gives every node at every depth the percentage
`time_in_nanos / denominator * 100` — a share of the whole pass, not of
the parent. -/
theorem processedQueries_shared_denominator (tab : Tab) (qs : List ProfileNode)
    (aggs : Option (List ProfileNode)) (rw : Option Nat)
    (cs : Option (List CollectorNode))
    (hD : 0 < specDenominator tab (activeData tab qs aggs) rw cs) :
    ∀ n ∈ allNodesForest (processedQueries tab qs aggs rw cs),
      n.percentage = (n.time_in_nanos : ℚ)
        / (specDenominator tab (activeData tab qs aggs) rw cs : ℚ) * 100 := by
  intro n hn
  have h := processedQueries_pct tab qs aggs rw cs n hn
  rw [specDenominator_eq_totalTime] at hD ⊢
  rw [h, pct, if_pos hD]

/-- C4: when the computed denominator is zero, every node of the produced
tree has percentage exactly `0` — the division is never performed. -/
theorem processedQueries_zero_denominator (tab : Tab) (qs : List ProfileNode)
    (aggs : Option (List ProfileNode)) (rw : Option Nat)
    (cs : Option (List CollectorNode))
    (hD : specDenominator tab (activeData tab qs aggs) rw cs = 0) :
    ∀ n ∈ allNodesForest (processedQueries tab qs aggs rw cs),
      n.percentage = 0 := by
  intro n hn
  have h := processedQueries_pct tab qs aggs rw cs n hn
  rw [specDenominator_eq_totalTime] at hD
  rw [h, pct, hD]
  simp

/-- A node is among the nodes of its own subtree. -/
theorem self_mem_allNodesP (p : ProcessedQuery) : p ∈ allNodesP p := by
  match p with
  | .mk i qn ty d tms t pc bd rbd ch => simp [allNodesP]

/-- The transform of a single root query is in the search-tab forest. -/
theorem head_mem_search_forest (q : ProfileNode) (aggs : Option (List ProfileNode))
    (rw : Option Nat) (cs : Option (List CollectorNode)) :
    transformQuery (totalTime .search [q] rw cs) q 0 "" ∈
      allNodesForest (processedQueries .search [q] aggs rw cs) := by
  rw [processedQueries_search_eq _ _ _ _ (by simp)]
  rw [allNodesForest, allNodesList_append, allNodesList_append]
  apply List.mem_append_left
  apply List.mem_append_left
  simp only [transformQueryList, allNodesList]
  exact List.mem_append_left _ (self_mem_allNodesP _)

/-- A sample root query: 50 ns. -/
def sampleQuery : ProfileNode := .mk "TermQuery" "title:hello" 50 none none

/-- A sample top-level collector: 20 ns. -/
def sampleCollector : CollectorNode :=
  .mk "SimpleTopScoreDocCollector" "search_top_hits" 20 none none

/-- Witness for C1: one 50 ns query, 30 ns rewrite, one 20 ns collector —
denominator 100 — instantiated at the transformed root query. -/
theorem processedQueries_shared_denominator_witness :
    (transformQuery (totalTime .search [sampleQuery] (some 30) (some [sampleCollector]))
        sampleQuery 0 "").percentage =
      ((transformQuery (totalTime .search [sampleQuery] (some 30) (some [sampleCollector]))
          sampleQuery 0 "").time_in_nanos : ℚ)
        / ((specDenominator .search (activeData .search [sampleQuery] none) (some 30)
            (some [sampleCollector])) : ℚ) * 100 :=
  processedQueries_shared_denominator .search [sampleQuery] none (some 30)
    (some [sampleCollector]) (by decide) _
    (head_mem_search_forest sampleQuery none (some 30) (some [sampleCollector]))

/-- An all-zero root query. -/
def zeroQuery : ProfileNode := .mk "TermQuery" "title:hello" 0 none none

/-- An all-zero collector. -/
def zeroCollector : CollectorNode := .mk "c" "r" 0 none none

/-- Witness for C4: every timing zero — the denominator is 0 and the
transformed root query's percentage is exactly 0. -/
theorem processedQueries_zero_denominator_witness :
    (transformQuery (totalTime .search [zeroQuery] (some 0) (some [zeroCollector]))
        zeroQuery 0 "").percentage = 0 :=
  processedQueries_zero_denominator .search [zeroQuery] none (some 0)
    (some [zeroCollector]) (by decide) _
    (head_mem_search_forest zeroQuery none (some 0) (some [zeroCollector]))

/-- Counterexample to C5 as stated: with no root queries the normalizer
short-circuits to an empty tree, so no `Rewrite` node is produced even
though `rewrite_time = 5 > 0` and a collector exists. -/
theorem processedQueries_empty_queries_cex :
    0 < 5 ∧
      processedQueries .search [] none (some 5) (some [sampleCollector]) = [] :=
  ⟨by decide, rfl⟩

/-- C5 (amended): when the search tab has at least one root query, the
produced tree is the transformed roots followed by a `Rewrite` node (if and
only if `rewrite_time` is defined and positive) and then one node per
top-level collector (if and only if the collectors list is defined and
non-empty); when the root query list is empty the tree is empty, synthetic
nodes included; the aggregation tab only ever holds the transformed
aggregation roots, never a synthetic node. -/
theorem processedQueries_structure (qs : List ProfileNode) (aggs : Option (List ProfileNode))
    (rw : Option Nat) (cs : Option (List CollectorNode)) :
    (qs ≠ [] → processedQueries .search qs aggs rw cs =
      transformQueryList (totalTime .search qs rw cs) qs 0 ""
        ++ rewritePart (totalTime .search qs rw cs) rw
        ++ collectorPart (totalTime .search qs rw cs) cs) ∧
    (qs = [] → processedQueries .search qs aggs rw cs = []) ∧
    processedQueries .aggregation qs aggs rw cs =
      transformQueryList (totalTime .aggregation (aggs.getD []) rw cs) (aggs.getD []) 0 "" := by
  refine ⟨?_, ?_, processedQueries_aggregation_eq qs aggs rw cs⟩
  · intro h
    exact processedQueries_search_eq qs aggs rw cs
      (fun hl => h (List.length_eq_zero.mp hl))
  · intro h
    subst h
    rfl

/-- Witness for C5: one query, positive rewrite time, one collector. -/
theorem processedQueries_structure_witness :
    processedQueries .search [sampleQuery] none (some 30) (some [sampleCollector]) =
      transformQueryList (totalTime .search [sampleQuery] (some 30) (some [sampleCollector]))
        [sampleQuery] 0 ""
        ++ rewritePart (totalTime .search [sampleQuery] (some 30) (some [sampleCollector]))
            (some 30)
        ++ collectorPart (totalTime .search [sampleQuery] (some 30) (some [sampleCollector]))
            (some [sampleCollector]) :=
  (processedQueries_structure [sampleQuery] none (some 30) (some [sampleCollector])).1
    (List.cons_ne_nil _ _)

/-! ### Node identifiers (C6) -/

theorem toDigitsCore_length_ge (b : Nat) :
    ∀ (fuel n : Nat) (ds : List Char), ds.length ≤ (Nat.toDigitsCore b fuel n ds).length := by
  intro fuel
  induction fuel with
  | zero => intro n ds; simp [Nat.toDigitsCore]
  | succ f ih =>
      intro n ds
      unfold Nat.toDigitsCore
      by_cases h : n / b = 0
      · simp [h]
      · simp only [h, if_false]
        calc ds.length ≤ (Nat.digitChar (n % b) :: ds).length := by simp
          _ ≤ _ := ih (n / b) (Nat.digitChar (n % b) :: ds)

/-- The decimal rendering of a natural number is never the empty string. -/
theorem natToString_ne_empty (n : Nat) : toString n ≠ "" := by
  show Nat.repr n ≠ ""
  unfold Nat.repr
  intro h
  have hd := congrArg String.data h
  have h1 : 1 ≤ (Nat.toDigits 10 n).length := by
    unfold Nat.toDigits
    unfold Nat.toDigitsCore
    by_cases h2 : n / 10 = 0
    · simp [h2]
    · simp only [h2, if_false]
      calc 1 = ([Nat.digitChar (n % 10)] : List Char).length := by simp
        _ ≤ _ := toDigitsCore_length_ge 10 n (n / 10) [Nat.digitChar (n % 10)]
  rw [show ("" : String).data = [] from rfl] at hd
  have hnil : (Nat.toDigits 10 n) = [] := by
    simpa [List.asString] using hd
  rw [hnil] at h1
  simp at h1

/-- A string of the shape `a ++ "-" ++ b` is never empty. -/
theorem str_append_ne_empty (a b : String) : a ++ "-" ++ b ≠ "" := by
  intro h
  have hd := congrArg String.data h
  rw [String.data_append, String.data_append] at hd
  simp at hd

/-- A `"query-"`-prefixed id is never the rewrite node's id. -/
theorem query_prefix_ne_rewrite (s : String) : "query-" ++ s ≠ "rewrite" := by
  intro h
  have hd := congrArg String.data h
  rw [String.data_append] at hd
  simp [show ("query-").data = ['q', 'u', 'e', 'r', 'y', '-'] from rfl,
    show ("rewrite").data = ['r', 'e', 'w', 'r', 'i', 't', 'e'] from rfl] at hd

/-- A `"query-"`-prefixed id is never a collector id. -/
theorem query_prefix_ne_collector (s t : String) :
    "query-" ++ s ≠ "collector-" ++ t := by
  intro h
  have hd := congrArg String.data h
  rw [String.data_append, String.data_append] at hd
  simp [show ("query-").data = ['q', 'u', 'e', 'r', 'y', '-'] from rfl,
    show ("collector-").data = ['c', 'o', 'l', 'l', 'e', 'c', 't', 'o', 'r', '-'] from rfl] at hd

mutual
/-- Checks, through the whole subtree, that every child's id is its
parent's id extended with `"-"` and the child's index among its siblings. -/
def childIdsOk : ProcessedQuery → Bool
  | .mk i _ _ _ _ _ _ _ _ ch => childIdsOkOpt i ch

def childIdsOkOpt : String → Option (List ProcessedQuery) → Bool
  | _, none => true
  | parent, some l => childIdsOkList parent 0 l

def childIdsOkList : String → Nat → List ProcessedQuery → Bool
  | _, _, [] => true
  | parent, j, .mk ci cqn cty cd ctms ct cpc cbd crbd cch :: rest =>
      decide (ci = parent ++ "-" ++ toString j) && childIdsOkOpt ci cch &&
        childIdsOkList parent (j + 1) rest
end

mutual
theorem childIdsOk_transformQuery (total : Nat) (q : ProfileNode) (i : Nat) (path : String) :
    childIdsOk (transformQuery total q i path) = true := by
  match q with
  | .mk ty desc t bd ch =>
      have hne : (if path = "" then toString i else path ++ "-" ++ toString i) ≠ "" := by
        by_cases hp : path = ""
        · simpa [hp] using natToString_ne_empty i
        · simpa [hp] using str_append_ne_empty path (toString i)
      simp only [transformQuery, childIdsOk]
      exact childIdsOkOpt_transformQueryChildren total ch _ hne

theorem childIdsOkOpt_transformQueryChildren (total : Nat) (ch : Option (List ProfileNode))
    (nodeId : String) (h : nodeId ≠ "") :
    childIdsOkOpt ("query-" ++ nodeId) (transformQueryChildren total ch nodeId) = true := by
  match ch with
  | none => simp [transformQueryChildren, childIdsOkOpt]
  | some l =>
      simp only [transformQueryChildren, childIdsOkOpt]
      exact childIdsOkList_transformQueryList total l 0 nodeId h

theorem childIdsOkList_transformQueryList (total : Nat) (l : List ProfileNode) (j : Nat)
    (nodeId : String) (h : nodeId ≠ "") :
    childIdsOkList ("query-" ++ nodeId) j (transformQueryList total l j nodeId) = true := by
  match l with
  | [] => simp [transformQueryList, childIdsOkList]
  | .mk ty desc t bd ch :: rest =>
      have hstep : transformQuery total (.mk ty desc t bd ch) j nodeId =
          .mk ("query-" ++ (nodeId ++ "-" ++ toString j)) (jsOr ty "Unknown Query")
            (jsOr ty "Unknown") (jsOr desc "") ((t : ℚ) / 1000000) t (pct total t)
            (bd.getD []) (bd.getD [])
            (transformQueryChildren total ch (nodeId ++ "-" ++ toString j)) := by
        simp [transformQuery, h]
      simp only [transformQueryList, hstep, childIdsOkList]
      simp only [decide_eq_true_eq, Bool.and_eq_true]
      refine ⟨⟨?_, ?_⟩, ?_⟩
      · simp [String.append_assoc]
      · exact childIdsOkOpt_transformQueryChildren total ch _
          (str_append_ne_empty nodeId (toString j))
      · exact childIdsOkList_transformQueryList total rest (j + 1) nodeId h
end

/-- Appending to a non-empty string stays non-empty. -/
theorem append_ne_empty_of_left (a b : String) (ha : a ≠ "") : a ++ b ≠ "" := by
  intro h
  have hd := congrArg String.data h
  rw [String.data_append] at hd
  rcases List.append_eq_nil.mp hd with ⟨h1, _⟩
  exact ha (by cases a; simp_all)

mutual
theorem childIdsOk_transformCollector (total : Nat) (c : CollectorNode) (i : Nat)
    (path : String) :
    childIdsOk (transformCollector total c i path) = true := by
  match c with
  | .mk name reason t bd ch =>
      have hne : (if path = "" then "collector-" ++ toString i
          else path ++ "-" ++ toString i) ≠ "" := by
        by_cases hp : path = ""
        · simpa [hp] using append_ne_empty_of_left "collector-" (toString i) (by decide)
        · simpa [hp] using str_append_ne_empty path (toString i)
      simp only [transformCollector, childIdsOk]
      exact childIdsOkOpt_transformCollectorChildren total ch _ hne

theorem childIdsOkOpt_transformCollectorChildren (total : Nat)
    (ch : Option (List CollectorNode)) (nodeId : String) (h : nodeId ≠ "") :
    childIdsOkOpt nodeId (transformCollectorChildren total ch nodeId) = true := by
  match ch with
  | none => simp [transformCollectorChildren, childIdsOkOpt]
  | some l =>
      simp only [transformCollectorChildren, childIdsOkOpt]
      exact childIdsOkList_transformCollectorList total l 0 nodeId h

theorem childIdsOkList_transformCollectorList (total : Nat) (l : List CollectorNode)
    (j : Nat) (nodeId : String) (h : nodeId ≠ "") :
    childIdsOkList nodeId j (transformCollectorList total l j nodeId) = true := by
  match l with
  | [] => simp [transformCollectorList, childIdsOkList]
  | .mk name reason t bd ch :: rest =>
      have hstep : transformCollector total (.mk name reason t bd ch) j nodeId =
          .mk (nodeId ++ "-" ++ toString j) (jsOr name "Collector") (jsOr name "Collector")
            (jsOr reason "") ((t : ℚ) / 1000000) t (pct total t)
            (bd.getD []) (bd.getD [])
            (transformCollectorChildren total ch (nodeId ++ "-" ++ toString j)) := by
        simp [transformCollector, h]
      simp only [transformCollectorList, hstep, childIdsOkList]
      simp only [decide_eq_true_eq, Bool.and_eq_true]
      refine ⟨⟨trivial, ?_⟩, ?_⟩
      · exact childIdsOkOpt_transformCollectorChildren total ch _
          (str_append_ne_empty nodeId (toString j))
      · exact childIdsOkList_transformCollectorList total rest (j + 1) nodeId h
end

/-- The rewrite node has no children, so its subtree trivially satisfies
the child-id law. -/
theorem childIdsOk_rewriteNode (total r : Nat) :
    childIdsOk (rewriteNode total r) = true := by
  simp [rewriteNode, childIdsOk, childIdsOkOpt]

theorem transformQueryList_length (total : Nat) (l : List ProfileNode) (j : Nat)
    (nodeId : String) : (transformQueryList total l j nodeId).length = l.length := by
  induction l generalizing j with
  | nil => simp [transformQueryList]
  | cons q rest ih => simp [transformQueryList, ih (j + 1)]

theorem transformQueryList_getElem (total : Nat) (l : List ProfileNode) (j : Nat)
    (nodeId : String) (i : Nat) :
    (transformQueryList total l j nodeId)[i]? =
      (l[i]?).map (fun q => transformQuery total q (j + i) nodeId) := by
  induction l generalizing j i with
  | nil => simp [transformQueryList]
  | cons q rest ih =>
      match i with
      | 0 => simp [transformQueryList]
      | i + 1 =>
          simp only [transformQueryList, List.getElem?_cons_succ]
          rw [ih (j + 1) i]
          have harith : j + 1 + i = j + (i + 1) := by omega
          rw [harith]

theorem transformCollectorList_getElem (total : Nat) (l : List CollectorNode) (j : Nat)
    (nodeId : String) (i : Nat) :
    (transformCollectorList total l j nodeId)[i]? =
      (l[i]?).map (fun c => transformCollector total c (j + i) nodeId) := by
  induction l generalizing j i with
  | nil => simp [transformCollectorList]
  | cons c rest ih =>
      match i with
      | 0 => simp [transformCollectorList]
      | i + 1 =>
          simp only [transformCollectorList, List.getElem?_cons_succ]
          rw [ih (j + 1) i]
          have harith : j + 1 + i = j + (i + 1) := by omega
          rw [harith]

theorem transformQuery_id_root (total : Nat) (q : ProfileNode) (i : Nat) :
    (transformQuery total q i "").id = "query-" ++ toString i := by
  match q with
  | .mk ty desc t bd ch => simp [transformQuery, ProcessedQuery.id]

theorem transformCollector_id_root (total : Nat) (c : CollectorNode) (i : Nat) :
    (transformCollector total c i "").id = "collector-" ++ toString i := by
  match c with
  | .mk name reason t bd ch => simp [transformCollector, ProcessedQuery.id]

theorem childIdsOk_mem_transformQueryList (total : Nat) (l : List ProfileNode) (j : Nat)
    (nodeId : String) :
    ∀ n ∈ transformQueryList total l j nodeId, childIdsOk n = true := by
  induction l generalizing j with
  | nil => intro n hn; simp [transformQueryList] at hn
  | cons q rest ih =>
      intro n hn
      simp only [transformQueryList, List.mem_cons] at hn
      rcases hn with rfl | hn
      · exact childIdsOk_transformQuery total q j nodeId
      · exact ih (j + 1) n hn

theorem childIdsOk_mem_transformCollectorList (total : Nat) (l : List CollectorNode)
    (j : Nat) (nodeId : String) :
    ∀ n ∈ transformCollectorList total l j nodeId, childIdsOk n = true := by
  induction l generalizing j with
  | nil => intro n hn; simp [transformCollectorList] at hn
  | cons c rest ih =>
      intro n hn
      simp only [transformCollectorList, List.mem_cons] at hn
      rcases hn with rfl | hn
      · exact childIdsOk_transformCollector total c j nodeId
      · exact ih (j + 1) n hn

mutual
theorem transformQuery_ids_prefix (total : Nat) (q : ProfileNode) (i : Nat) (path : String) :
    ∀ n ∈ allNodesP (transformQuery total q i path), ∃ s, n.id = "query-" ++ s := by
  match q with
  | .mk ty desc t bd ch =>
      intro n hn
      simp only [transformQuery, allNodesP] at hn
      rcases List.mem_cons.mp hn with h | h
      · subst h
        exact ⟨_, rfl⟩
      · exact transformQueryChildren_ids_prefix total ch _ n h

theorem transformQueryChildren_ids_prefix (total : Nat) (ch : Option (List ProfileNode))
    (nodeId : String) :
    ∀ n ∈ allNodesOpt (transformQueryChildren total ch nodeId),
      ∃ s, n.id = "query-" ++ s := by
  match ch with
  | none => intro n hn; simp [transformQueryChildren, allNodesOpt] at hn
  | some l =>
      intro n hn
      simp only [transformQueryChildren, allNodesOpt] at hn
      exact transformQueryList_ids_prefix total l 0 nodeId n hn

theorem transformQueryList_ids_prefix (total : Nat) (l : List ProfileNode) (i : Nat)
    (nodeId : String) :
    ∀ n ∈ allNodesList (transformQueryList total l i nodeId),
      ∃ s, n.id = "query-" ++ s := by
  match l with
  | [] => intro n hn; simp [transformQueryList, allNodesList] at hn
  | q :: rest =>
      intro n hn
      simp only [transformQueryList, allNodesList] at hn
      rcases List.mem_append.mp hn with h | h
      · exact transformQuery_ids_prefix total q i nodeId n h
      · exact transformQueryList_ids_prefix total rest (i + 1) nodeId n h
end

/-- Counterexample to C6 as stated: the root query node's id is
`"query-0"`, not the plain index `"0"` that the claim states. -/
theorem root_query_plain_index_id_cex :
    ((processedQueries .search [sampleQuery] none none none).head?.map ProcessedQuery.id ≠
      some "0") ∧
    ((processedQueries .search [sampleQuery] none none none).head?.map ProcessedQuery.id =
      some "query-0") := by
  have hres : processedQueries .search [sampleQuery] none none none =
      [transformQuery (totalTime .search [sampleQuery] none none) sampleQuery 0 ""] := by
    rw [processedQueries_search_eq _ _ _ _ (by simp)]
    simp [rewritePart, collectorPart, transformQueryList]
  rw [hres]
  simp only [List.head?, Option.map]
  rw [transformQuery_id_root]
  constructor
  · intro h
    have := Option.some.inj h
    revert this
    decide
  · have : "query-" ++ toString 0 = "query-0" := by decide
    rw [this]

/-- C6 (amended): in the search-tab tree, (a) the i-th root node, for i
below the number of root queries, has id `"query-" ++ i` (the source
prefixes `"query-"`; roots do not get the plain index the claim states);
(b) every node's children have ids equal to the parent's id extended with
`"-"` and the child index, at every depth; (c) the synthetic rewrite node
has the fixed id `"rewrite"` and the j-th top-level collector node has id
`"collector-" ++ j`; (d) every node of a query subtree has a
`"query-"`-prefixed id, so synthetic ids never collide with query ids. -/
theorem processedQueries_node_ids (qs : List ProfileNode) (aggs : Option (List ProfileNode))
    (rw : Option Nat) (cs : Option (List CollectorNode)) :
    (∀ i, i < qs.length →
      ((processedQueries .search qs aggs rw cs)[i]?).map ProcessedQuery.id =
        some ("query-" ++ toString i)) ∧
    (∀ n ∈ processedQueries .search qs aggs rw cs, childIdsOk n = true) ∧
    ((rewritePart (totalTime .search qs rw cs) rw).map ProcessedQuery.id =
      if 0 < rw.getD 0 then ["rewrite"] else []) ∧
    (∀ j : Nat, ((collectorPart (totalTime .search qs rw cs) cs)[j]?).map ProcessedQuery.id =
      if 0 < (cs.getD []).length then
        ((cs.getD [])[j]?).map (fun _ => "collector-" ++ toString j)
      else none) ∧
    (∀ n ∈ allNodesForest (transformQueryList (totalTime .search qs rw cs) qs 0 ""),
      n.id ≠ "rewrite" ∧ ∀ j : Nat, n.id ≠ "collector-" ++ toString j) := by
  refine ⟨?_, ?_, ?_, ?_, ?_⟩
  · intro i hi
    have hq : qs.length ≠ 0 := by omega
    rw [processedQueries_search_eq qs aggs rw cs hq]
    rw [List.getElem?_append]
    rw [if_pos (by rw [List.length_append, transformQueryList_length]; omega)]
    rw [List.getElem?_append]
    rw [if_pos (by rw [transformQueryList_length]; exact hi)]
    rw [transformQueryList_getElem]
    rw [List.getElem?_eq_getElem hi]
    simp only [Option.map, Nat.zero_add]
    rw [transformQuery_id_root]
  · intro n hn
    by_cases hq : qs.length = 0
    · have hres : processedQueries .search qs aggs rw cs = [] := by
        unfold processedQueries
        rw [show activeData .search qs aggs = qs from rfl, if_pos hq]
      rw [hres] at hn
      simp at hn
    · rw [processedQueries_search_eq qs aggs rw cs hq] at hn
      rcases List.mem_append.mp hn with h | h3
      rotate_left
      · match cs with
        | none => simp [collectorPart] at h3
        | some csl =>
            by_cases hcs : 0 < csl.length
            · simp only [collectorPart, if_pos hcs] at h3
              exact childIdsOk_mem_transformCollectorList _ _ _ _ n h3
            · simp [collectorPart, hcs] at h3
      rcases List.mem_append.mp h with h1 | h2
      · exact childIdsOk_mem_transformQueryList _ _ _ _ n h1
      · match rw with
          | none => simp [rewritePart] at h2
          | some r =>
              by_cases hr : 0 < r
              · simp only [rewritePart, if_pos hr, List.mem_singleton] at h2
                subst h2
                exact childIdsOk_rewriteNode _ _
              · simp [rewritePart, hr] at h2
  · match rw with
    | none => simp [rewritePart]
    | some r =>
        by_cases hr : 0 < r
        · simp [rewritePart, hr, rewriteNode, ProcessedQuery.id]
        · simp [rewritePart, hr]
  · intro j
    match cs with
    | none => simp [collectorPart]
    | some csl =>
        by_cases hcs : 0 < csl.length
        · simp only [collectorPart, if_pos hcs, Option.getD]
          rw [transformCollectorList_getElem]
          match h : csl[j]? with
          | none => simp [h]
          | some c => simp [h, transformCollector_id_root]
        · simp [collectorPart, hcs]
  · intro n hn
    obtain ⟨s, hs⟩ := transformQueryList_ids_prefix _ qs 0 "" n hn
    rw [hs]
    exact ⟨query_prefix_ne_rewrite s, fun j => query_prefix_ne_collector s (toString j)⟩

/-- Witness for C6: the first conjunct instantiated at the sample data —
the root query node at index 0 carries id `"query-0"`. -/
theorem processedQueries_node_ids_witness :
    ((processedQueries .search [sampleQuery] none (some 30) (some [sampleCollector]))[0]?).map
        ProcessedQuery.id = some ("query-" ++ toString 0) :=
  (processedQueries_node_ids [sampleQuery] none (some 30) (some [sampleCollector])).1 0
    (by decide)

/-! ### Breakdown-row extraction (`QueryDetailPanel.getBreakdownEntries`) -/

/-- One row of the operation-breakdown table. -/
structure BreakdownEntry where
  operation : String
  timeNs : Int
  count : Int
deriving DecidableEq

/-- A JavaScript regex word character (`\w`): ASCII letter, digit or `_`. -/
def isWordChar (c : Char) : Bool :=
  c.isAlphanum || c = '_'

/-- `replace(/\b\w/g, c => c.toUpperCase())`: uppercase each word character
that starts a word (start of string or preceded by a non-word character). -/
def capitalizeWordsAux : Bool → List Char → List Char
  | _, [] => []
  | prevWord, c :: rest =>
      (if !prevWord && isWordChar c then c.toUpper else c) ::
        capitalizeWordsAux (isWordChar c) rest

/-- The label humanization of `getBreakdownEntries`:
`key.replace(/_/g, ' ').replace(/\b\w/g, c => c.toUpperCase())`. -/
def humanize (key : String) : String :=
  String.mk (capitalizeWordsAux false (key.data.map (fun c => if c = '_' then ' ' else c)))

/-- JavaScript `String.prototype.endsWith`, on the character lists. -/
def strEndsWith (s pat : String) : Bool :=
  pat.data.isSuffixOf s.data

/-- Numeric lookup in the breakdown map (`breakdown[key]`). -/
def bdLookup : List (String × Int) → String → Option Int
  | [], _ => none
  | (k', v) :: rest, k => if k' = k then some v else bdLookup rest k

/-- The key loop of `getBreakdownEntries`: iterate the breakdown keys in
order, carrying the `processedKeys` set; skip a key already processed or
ending in `_count`; pair the key with its `<key>_count` sibling (count 0
when absent); keep the row when `includeZeros` (raw mode) or when time or
count is positive; on keeping a row, mark both the key and its count key
processed.  The pair's value is `breakdown[key]` (keys of a decoded object
are unique, so the iterated pair's own value). -/
def getBreakdownEntriesGo (includeZeros : Bool) (bd : List (String × Int)) :
    List (String × Int) → List String → List BreakdownEntry
  | [], _ => []
  | (k, v) :: rest, processed =>
      if processed.contains k || strEndsWith k "_count" then
        getBreakdownEntriesGo includeZeros bd rest processed
      else
        let countKey := k ++ "_count"
        let countValue := (bdLookup bd countKey).getD 0
        if includeZeros || 0 < v || 0 < countValue then
          ⟨humanize k, v, countValue⟩ ::
            getBreakdownEntriesGo includeZeros bd rest (k :: countKey :: processed)
        else
          getBreakdownEntriesGo includeZeros bd rest processed

/-- Descending order on rows by `timeNs` (the comparator
`(a, b) => b.timeNs - a.timeNs`). -/
def entryGe (a b : BreakdownEntry) : Prop :=
  b.timeNs ≤ a.timeNs

instance : DecidableRel entryGe :=
  fun a b => inferInstanceAs (Decidable (b.timeNs ≤ a.timeNs))

instance : IsTotal BreakdownEntry entryGe :=
  ⟨fun a b => le_total b.timeNs a.timeNs⟩

instance : IsTrans BreakdownEntry entryGe :=
  ⟨fun _ _ _ hab hbc => le_trans hbc hab⟩

/-- `getBreakdownEntries` from `QueryDetailPanel`: extract the rows, then
sort by time descending (`Array.prototype.sort` with the comparator
`(a, b) => b.timeNs - a.timeNs` is a stable descending sort, modelled by
stable insertion sort under `entryGe`). -/
def getBreakdownEntries (includeZeros : Bool) (bd : List (String × Int)) :
    List BreakdownEntry :=
  List.insertionSort entryGe (getBreakdownEntriesGo includeZeros bd bd [])

/-- The breakdown rows exactly as the spec words them: take each key not
ending in `_count`, pair it with its `<key>_count` sibling defaulting to 0,
humanize the label, and keep the row unconditionally in raw mode or when
time or count is positive in filtered mode.  (Spec-side definition, to be
compared with the source's `processedKeys` loop.) -/
def breakdownRowsSpec (includeZeros : Bool) (bd : List (String × Int)) :
    List BreakdownEntry :=
  (bd.filter (fun kv => !strEndsWith kv.1 "_count")).filterMap (fun kv =>
    let c := (bdLookup bd (kv.1 ++ "_count")).getD 0
    if includeZeros || 0 < kv.2 || 0 < c then some ⟨humanize kv.1, kv.2, c⟩ else none)

/-- A key extended with `_count` ends with `_count`. -/
theorem strEndsWith_append_count (s : String) :
    strEndsWith (s ++ "_count") "_count" = true := by
  unfold strEndsWith
  rw [String.data_append, List.isSuffixOf_iff_suffix]
  exact List.suffix_append _ _

/-- With unique keys, the `processedKeys` set never blocks a key that does
not end in `_count`, so the loop agrees with the simple filter/map. -/
theorem gbeGo_eq_spec (includeZeros : Bool) (bd : List (String × Int)) :
    ∀ (rest : List (String × Int)) (processed : List String),
      (∀ kv ∈ rest, strEndsWith kv.1 "_count" = false → kv.1 ∉ processed) →
      (rest.map Prod.fst).Nodup →
      getBreakdownEntriesGo includeZeros bd rest processed =
        (rest.filter (fun kv => !strEndsWith kv.1 "_count")).filterMap (fun kv =>
          let c := (bdLookup bd (kv.1 ++ "_count")).getD 0
          if includeZeros || 0 < kv.2 || 0 < c then some ⟨humanize kv.1, kv.2, c⟩
          else none) := by
  intro rest
  induction rest with
  | nil => intro processed _ _; rfl
  | cons kv rest ih =>
      intro processed hinv hnd
      obtain ⟨k, v⟩ := kv
      rw [List.map_cons, List.nodup_cons] at hnd
      match hce : strEndsWith k "_count" with
      | true =>
          have hfilter :
              ((k, v) :: rest).filter (fun kv => !strEndsWith kv.1 "_count") =
                rest.filter (fun kv => !strEndsWith kv.1 "_count") := by
            simp [List.filter_cons, hce]
          rw [hfilter]
          unfold getBreakdownEntriesGo
          rw [if_pos (by simp [hce])]
          exact ih processed (fun kv h he => hinv kv (List.mem_cons_of_mem _ h) he) hnd.2
      | false =>
          have hk : k ∉ processed := hinv (k, v) (List.mem_cons_self _ _) hce
          have hfilter :
              ((k, v) :: rest).filter (fun kv => !strEndsWith kv.1 "_count") =
                (k, v) :: rest.filter (fun kv => !strEndsWith kv.1 "_count") := by
            simp [List.filter_cons, hce]
          rw [hfilter]
          unfold getBreakdownEntriesGo
          rw [if_neg (by
            simp only [Bool.or_eq_true, not_or]
            refine ⟨fun hc => hk (by simpa using hc), ?_⟩
            simp [hce])]
          rw [List.filterMap_cons]
          simp only []
          by_cases hcond : (includeZeros || decide (0 < v) ||
              decide (0 < ((bdLookup bd (k ++ "_count")).getD 0))) = true
          · rw [if_pos hcond, if_pos hcond]
            refine congrArg (List.cons _) ?_
            refine ih (k :: (k ++ "_count") :: processed)
              (fun kv' hkv' hend' => ?_) hnd.2
            simp only [List.mem_cons, not_or]
            refine ⟨?_, ?_, hinv kv' (List.mem_cons_of_mem _ hkv') hend'⟩
            · intro heq
              apply hnd.1
              have hmem : kv'.1 ∈ List.map Prod.fst rest :=
                List.mem_map_of_mem Prod.fst hkv'
              rw [heq] at hmem
              exact hmem
            · intro heq
              rw [heq, strEndsWith_append_count] at hend'
              exact Bool.noConfusion hend'
          · rw [if_neg hcond, if_neg hcond]
            exact ih processed (fun kv h he => hinv kv (List.mem_cons_of_mem _ h) he) hnd.2

/-- C8: on a breakdown map with unique keys (numeric values throughout, as
decoded breakdowns are), `getBreakdownEntries` equals the stable descending
sort of the spec's rows — each non-`_count` key paired with its
`<key>_count` sibling (count defaulting to 0), label humanized, kept
unconditionally in raw mode or when time or count is positive in filtered
mode — and the result is sorted by time descending and is a permutation of
those rows; the humanization replaces underscores with spaces and
capitalizes the first letter of each word. -/
theorem getBreakdownEntries_spec (bd : List (String × Int))
    (hnd : (bd.map Prod.fst).Nodup) (includeZeros : Bool) :
    getBreakdownEntries includeZeros bd =
      List.insertionSort entryGe (breakdownRowsSpec includeZeros bd) ∧
    (getBreakdownEntries includeZeros bd).Sorted entryGe ∧
    (getBreakdownEntries includeZeros bd).Perm (breakdownRowsSpec includeZeros bd) ∧
    humanize "build_scorer" = "Build Scorer" ∧
    humanize "next_doc" = "Next Doc" := by
  have hgo := gbeGo_eq_spec includeZeros bd bd [] (by simp) hnd
  refine ⟨?_, ?_, ?_, by decide, by decide⟩
  · unfold getBreakdownEntries breakdownRowsSpec
    rw [hgo]
  · unfold getBreakdownEntries
    exact List.sorted_insertionSort entryGe _
  · unfold getBreakdownEntries breakdownRowsSpec
    rw [hgo]
    exact List.perm_insertionSort entryGe _

/-- A sample decoded breakdown map. -/
def sampleBreakdown : List (String × Int) :=
  [("match", 800000), ("match_count", 1), ("advance", 0), ("advance_count", 0),
    ("score", 150000), ("score_count", 3)]

/-- Witness for C8 at the sample breakdown, filtered mode. -/
theorem getBreakdownEntries_spec_witness :
    getBreakdownEntries false sampleBreakdown =
      List.insertionSort entryGe (breakdownRowsSpec false sampleBreakdown) :=
  (getBreakdownEntries_spec sampleBreakdown (by decide) false).1
